import Mathlib

/-!
Verification development for the Qupid repository.

The repository consists of three standalone Python scripts:
  - src/xanadu/graph_custom.py    (functions graph_custom, gen_random_search, main guard)
  - src/xanadu/teleportation.py   (top-level straight-line script)
  - src/insr/simulation.py        (top-level straight-line script)

Two shallow embeddings are developed, both translated from the source:

1. A script-level embedding: each Python file is translated statement by
   statement into a small statement language `Stmt` (assignments, library
   calls, attribute assignment, return, sequencing, for-range loops,
   conditionals, try/except).  Nested Python expressions are flattened into
   temporary-variable assignments, preserving evaluation order; opaque
   expressions (float literals, complex arithmetic) become symbolic values.
   Execution `Stmt.exec` threads a variable environment and records the
   sequence of library interactions (the trace) while consulting an oracle
   `Oracle` that models the external libraries; a library call may raise,
   which is modelled by the oracle returning an error.

2. A graph-level embedding of graph_custom: networkx graphs become finite
   node sets with finite edge sets of unordered pairs, and the calls into
   numpy/networkx randomness are modelled by an explicit randomness record
   `GCRand` whose documented guarantees (a spanning tree, a count in
   [1, n], distinct in-range node draws) are stated as the predicate
   `ValidRand`.
-/

/-- Python values as far as the scripts manipulate them: integer and string
literals, booleans, opaque symbolic expressions (float and complex literals,
arithmetic over them), and variable references (resolved at execution). -/
inductive PyVal where
  | intV (n : Int)
  | strV (s : String)
  | boolV (b : Bool)
  | sym (d : String)
  | var (x : String)
deriving DecidableEq, Repr

/-- A call into an external library (or a builtin): a target name,
positional arguments and keyword arguments. -/
structure Call where
  target : String
  args : List PyVal
  kwargs : List (String × PyVal)
deriving DecidableEq, Repr

/-- An observable interaction with the external libraries: a call, or an
attribute assignment on a library object (such as sim.diags = [...]). -/
inductive Event where
  | call (c : Call)
  | setattr (obj attr : String) (vals : List PyVal)
deriving DecidableEq, Repr

/-- Statements of the embedded scripts. -/
inductive Stmt where
  | skip
  | assign (x : String) (v : PyVal)
  | assignCall (x : String) (c : Call)
  | exprCall (c : Call)
  | setattrList (obj attr : String) (vs : List PyVal)
  | ret (v : PyVal)
  | seq (a b : Stmt)
  | forRange (x : String) (cnt : PyVal) (body : Stmt)
  | ite (cond : PyVal) (thn els : Stmt)
  | tryExcept (body handler : Stmt)
deriving DecidableEq, Repr

/-- Execution state: the variable environment and the trace of library
interactions so far. -/
structure St where
  env : String → PyVal
  trace : List Event

/-- Update a variable. -/
def St.set (s : St) (x : String) (v : PyVal) : St :=
  ⟨fun y => if y = x then v else s.env y, s.trace⟩

/-- Record a library interaction. -/
def St.emit (s : St) (e : Event) : St :=
  ⟨s.env, s.trace ++ [e]⟩

/-- The external libraries, as an oracle: a call either returns a value or
raises an exception (modelled as an error message). -/
abbrev Oracle := Call → Except String PyVal

/-- Resolve a variable reference against the environment. -/
def resolve (σ : String → PyVal) : PyVal → PyVal
  | .var x => σ x
  | v => v

/-- Resolve all arguments of a call. -/
def resolveCall (σ : String → PyVal) (c : Call) : Call :=
  ⟨c.target, c.args.map (resolve σ), c.kwargs.map (fun kv => (kv.1, resolve σ kv.2))⟩

/-- Loop bound of a resolved value (range argument). -/
def countOf : PyVal → Nat
  | .intV n => n.toNat
  | _ => 0

/-- Python truthiness of a resolved value; opaque symbolic values default
to false (no claim depends on branches over symbolic conditions). -/
def truthy : PyVal → Bool
  | .boolV b => b
  | .intV n => decide (n ≠ 0)
  | .strV s => decide (s ≠ "")
  | _ => false

/-- Iterate a loop body: indices i, i+1, ... for k iterations, stopping at
an error or an early return. -/
def execIter (f : Nat → St → Except String (St × Option PyVal)) :
    Nat → Nat → St → Except String (St × Option PyVal)
  | _, 0, s => .ok (s, none)
  | i, k + 1, s =>
    match f i s with
    | .error e => .error e
    | .ok (s1, some v) => .ok (s1, some v)
    | .ok (s1, none) => execIter f (i + 1) k s1

/-- Execute a statement: returns the final state and an optional returned
value, or propagates an exception.  The only source of errors is the
library oracle; try/except runs its handler when the body raises. -/
def Stmt.exec (ω : Oracle) : Stmt → St → Except String (St × Option PyVal)
  | .skip, s => .ok (s, none)
  | .assign x v, s => .ok (s.set x (resolve s.env v), none)
  | .assignCall x c, s =>
    match ω (resolveCall s.env c) with
    | .error e => .error e
    | .ok v => .ok ((s.emit (.call (resolveCall s.env c))).set x v, none)
  | .exprCall c, s =>
    match ω (resolveCall s.env c) with
    | .error e => .error e
    | .ok _ => .ok (s.emit (.call (resolveCall s.env c)), none)
  | .setattrList obj attr vs, s =>
    .ok (s.emit (.setattr obj attr (vs.map (resolve s.env))), none)
  | .ret v, s => .ok (s, some (resolve s.env v))
  | .seq a b, s =>
    match a.exec ω s with
    | .error e => .error e
    | .ok (s1, some v) => .ok (s1, some v)
    | .ok (s1, none) => b.exec ω s1
  | .forRange x cnt body, s =>
    execIter (fun i s2 => body.exec ω (s2.set x (.intV i)))
      0 (countOf (resolve s.env cnt)) s
  | .ite c t e, s =>
    if truthy (resolve s.env c) then t.exec ω s else e.exec ω s
  | .tryExcept b h, s =>
    match b.exec ω s with
    | .error _ => h.exec ω s
    | .ok r => .ok r

/-- Sequential composition of a block of statements. -/
def seqAll : List Stmt → Stmt
  | [] => .skip
  | [s] => s
  | s :: rest => .seq s (seqAll rest)

/-- A statement is straight-line if it contains no loop, no conditional and
no exception handler: only assignments, library calls, attribute
assignments, returns and sequencing. -/
def Stmt.straightB : Stmt → Bool
  | .seq a b => a.straightB && b.straightB
  | .forRange _ _ _ => false
  | .ite _ _ _ => false
  | .tryExcept _ _ => false
  | _ => true

/-- A statement contains no try/except anywhere. -/
def Stmt.noTryB : Stmt → Bool
  | .seq a b => a.noTryB && b.noTryB
  | .forRange _ _ b => b.noTryB
  | .ite _ t e => t.noTryB && e.noTryB
  | .tryExcept _ _ => false
  | _ => true

/-- All call targets occurring in a statement (targets are static names in
the source, so this is a syntactic collection). -/
def Stmt.callTargets : Stmt → List String
  | .assignCall _ c => [c.target]
  | .exprCall c => [c.target]
  | .seq a b => a.callTargets ++ b.callTargets
  | .forRange _ _ b => b.callTargets
  | .ite _ t e => t.callTargets ++ e.callTargets
  | .tryExcept b h => b.callTargets ++ h.callTargets
  | _ => []

/-- Initial execution state: every variable unbound, empty trace. -/
def initSt : St := ⟨fun _ => .sym "unbound", []⟩

/-- The oracle in which every library call succeeds, returning the value
given by val.  Used to state the success-path trace of each script. -/
def okO (val : Call → PyVal) : Oracle := fun c => .ok (val c)

/-
Embedding of src/xanadu/graph_custom.py.

Nested expressions are flattened into temporaries, preserving evaluation
order:
  A = nx.adjacency_matrix(G).todense()
    becomes  t_adj = nx.adjacency_matrix(G); A = t_adj.todense()
  results.samples
    becomes  a getattr.samples call on the variable results (the source
    reads the attribute twice, once for print and once for np.save, so the
    embedding performs the getattr call twice)
  the with prog.context as q: header
    becomes  q = prog.context (context entry), followed by the gate
    applications of the with-block in order.
-/

/-- Body of def graph_custom(n_nodes, show_plot) (graph_custom.py lines
8-32).  The tuple unpacking u, v = np.random.choice(...) becomes a
temporary followed by two indexing assignments, and
if not G.has_edge(u, v): G.add_edge(u, v) becomes a conditional whose
then-branch is skip and whose else-branch adds the edge (the negation is
compiled away by swapping the branches). -/
def graphCustomFnBody : Stmt := seqAll [
  .assignCall "G" ⟨"nx.generators.trees.random_tree", [.var "n_nodes"], []⟩,
  .assignCall "n_extra_edges" ⟨"np.random.randint", [.intV 1, .sym "n_nodes + 1"], []⟩,
  .forRange "_" (.var "n_extra_edges") (seqAll [
    .assignCall "t_uv" ⟨"np.random.choice", [.var "n_nodes", .intV 2], [("replace", .boolV false)]⟩,
    .assign "u" (.sym "t_uv[0]"),
    .assign "v" (.sym "t_uv[1]"),
    .assignCall "t_has" ⟨"G.has_edge", [.var "u", .var "v"], []⟩,
    .ite (.var "t_has") .skip (.exprCall ⟨"G.add_edge", [.var "u", .var "v"], []⟩)]),
  .ite (.var "show_plot")
    (.seq (.exprCall ⟨"nx.draw", [.var "G"], [("with_labels", .boolV true)]⟩)
          (.exprCall ⟨"plt.show", [], []⟩))
    .skip,
  .ret (.var "G")]

/-- Body of def gen_random_search(G, n_nodes) (graph_custom.py lines
34-58). -/
def genRandomSearchBody : Stmt := seqAll [
  .assignCall "t_adj" ⟨"nx.adjacency_matrix", [.var "G"], []⟩,
  .assignCall "A" ⟨"todense", [.var "t_adj"], []⟩,
  .exprCall ⟨"print", [.strV "got adjacency matrix"], []⟩,
  .assignCall "prog" ⟨"sf.Program", [.var "n_nodes"], []⟩,
  .assignCall "q" ⟨"prog.context", [.var "prog"], []⟩,
  .exprCall ⟨"GraphEmbed", [.var "A", .var "q"], []⟩,
  .exprCall ⟨"MeasureFock", [.var "q"], []⟩,
  .assignCall "eng" ⟨"sf.Engine", [], [("backend", .strV "gaussian")]⟩,
  .assignCall "results" ⟨"eng.run", [.var "prog"], [("shots", .intV 1000)]⟩,
  .assignCall "t_samples" ⟨"getattr.samples", [.var "results"], []⟩,
  .exprCall ⟨"print", [.strV "Measured photon numbers per mode:", .var "t_samples"], []⟩,
  .assignCall "t_samples2" ⟨"getattr.samples", [.var "results"], []⟩,
  .exprCall ⟨"np.save", [.strV "samples.npy", .var "t_samples2"], []⟩]

/-- The if __name__ == main guard of graph_custom.py (lines 60-62). -/
def graphCustomMain : Stmt :=
  .ite (.sym "__name__ == __main__")
    (.seq (.assignCall "G" ⟨"graph_custom", [], [("show_plot", .boolV true)]⟩)
          (.exprCall ⟨"gen_random_search", [.var "G"], []⟩))
    .skip

/-- All code of graph_custom.py: the two function bodies and the top-level
guard, concatenated for syntactic analysis of the whole file. -/
def graphCustomScript : Stmt :=
  .seq graphCustomFnBody (.seq genRandomSearchBody graphCustomMain)

/-- Embedding of src/insr/simulation.py (top-level script).  Float literals
are opaque symbolic values; dt = zmax/Nz/c is an opaque arithmetic
expression.  The list literal assigned to sim.diags is flattened:
FieldDiagnostic(...) and ParticleDiagnostic(...) are evaluated left to
right (with sim.ptcl[0] flattened into a getattr and an indexing call) and
the attribute assignment stores the two results. -/
def simulationAst : Stmt := seqAll [
  .assign "Nz" (.intV 200),
  .assign "zmax" (.sym "10.e-6"),
  .assign "zmin" (.intV 0),
  .assign "Nr" (.intV 50),
  .assign "rmax" (.sym "25.e-6"),
  .assign "c" (.intV 299792458),
  .assign "dt" (.sym "zmax/Nz/c"),
  .assign "gamma_bunch" (.sym "400."),
  .assign "sig_r" (.sym "1.e-6"),
  .assign "sig_z" (.sym "1.e-6"),
  .assign "n_e" (.sym "4.e24"),
  .assign "Q" (.sym "-10.e-12"),
  .assignCall "sim" ⟨"Simulation", [.var "Nz", .var "zmax", .var "Nr", .var "rmax", .var "dt"],
    [("boundaries", .strV "open")]⟩,
  .assign "plasma_density" (.sym "1.e24"),
  .exprCall ⟨"sim.add_plasma", [], [("density", .var "plasma_density")]⟩,
  .exprCall ⟨"add_elec_bunch", [.var "sim"],
    [("gamma0", .var "gamma_bunch"), ("sig_r", .var "sig_r"), ("sig_z", .var "sig_z"),
     ("n_emit", .sym "0."), ("n_part", .sym "1.e5"), ("Q", .var "Q")]⟩,
  .assignCall "t_fd" ⟨"FieldDiagnostic", [], [("period", .intV 100), ("sim", .var "sim")]⟩,
  .assignCall "t_ptcl" ⟨"getattr.ptcl", [.var "sim"], []⟩,
  .assignCall "t_p0" ⟨"getitem", [.var "t_ptcl", .intV 0], []⟩,
  .assignCall "t_pd" ⟨"ParticleDiagnostic", [],
    [("period", .intV 100), ("sim", .var "sim"), ("species", .var "t_p0")]⟩,
  .setattrList "sim" "diags" [.var "t_fd", .var "t_pd"],
  .exprCall ⟨"sim.step", [.intV 1000], []⟩]

/-- Embedding of src/xanadu/teleportation.py (top-level script).  Gate
applications gate | q[i] become calls whose last argument names the mode;
the commented-out local Fock-engine block (lines 41-66 of the source) is
not part of the program and so has no statement here. -/
def teleportationAst : Stmt := seqAll [
  .exprCall ⟨"np.random.seed", [.intV 47], []⟩,
  .assignCall "prog" ⟨"sf.Program", [.intV 3], []⟩,
  .assign "alpha" (.sym "1 + 0.5j"),
  .assignCall "r" ⟨"abs", [.var "alpha"], []⟩,
  .assignCall "phi" ⟨"np.angle", [.var "alpha"], []⟩,
  .assignCall "q" ⟨"prog.context", [.var "prog"], []⟩,
  .exprCall ⟨"Coherent", [.var "r", .var "phi", .sym "q[0]"], []⟩,
  .exprCall ⟨"Squeezed", [.intV (-2), .sym "q[1]"], []⟩,
  .exprCall ⟨"Squeezed", [.intV 2, .sym "q[2]"], []⟩,
  .assignCall "BS" ⟨"BSgate", [.sym "np.pi/4", .sym "np.pi"], []⟩,
  .exprCall ⟨"applyGate", [.var "BS", .sym "q[1], q[2]"], []⟩,
  .exprCall ⟨"applyGate", [.var "BS", .sym "q[0], q[1]"], []⟩,
  .exprCall ⟨"MeasureX", [.sym "q[0]"], []⟩,
  .exprCall ⟨"MeasureP", [.sym "q[1]"], []⟩,
  .exprCall ⟨"Xgate", [.sym "np.sqrt(2) * q[0].par", .sym "q[2]"], []⟩,
  .exprCall ⟨"Zgate", [.sym "-np.sqrt(2) * q[1].par", .sym "q[2]"], []⟩,
  .assignCall "eng" ⟨"sf.RemoteEngine", [.strV "simulon_gaussian"], []⟩,
  .assignCall "results" ⟨"eng.run", [.var "prog"], [("shots", .intV 1)]⟩,
  .assignCall "t_samples" ⟨"getattr.samples", [.var "results"], []⟩,
  .exprCall ⟨"print", [.var "t_samples"], []⟩]

/-- Import lists of the three files, in source order. -/
def graphCustomImports : List String :=
  ["numpy", "networkx", "matplotlib.pyplot", "strawberryfields", "strawberryfields.ops"]

/-- Imports of teleportation.py. -/
def teleportationImports : List String :=
  ["strawberryfields", "strawberryfields.ops", "numpy", "matplotlib.pyplot"]

/-- Imports of simulation.py. -/
def simulationImports : List String :=
  ["fbpic.main", "fbpic.openpmd_diag", "fbpic.lpa_utils.bunch"]

/-- Module names under which the repository files themselves could be
imported. -/
def repoModules : List String :=
  ["graph_custom", "teleportation", "simulation", "xanadu", "insr",
   "xanadu.graph_custom", "xanadu.teleportation", "insr.simulation"]

/-- Whether the string p is a prefix of the string m, by characters. -/
def strPrefix (p m : String) : Bool := p.data.isPrefixOf m.data

/-- A list of imports is external-only if none of them is a repository
module or a submodule of one. -/
def externalOnly (imps : List String) : Bool :=
  imps.all fun m => repoModules.all fun r => !(m = r) && !(strPrefix (r ++ ".") m)

/-- Names defined by graph_custom.py (the only file defining functions). -/
def gcDefined : List String := ["graph_custom", "gen_random_search"]

/-- No call in simulation.py or teleportation.py targets a name defined by
graph_custom.py (the other two files define no functions at all, so this is
the full pairwise cross-call check). -/
def noCrossCalls : Bool :=
  (simulationAst.callTargets ++ teleportationAst.callTargets).all
    fun t => !(gcDefined.contains t)

/-- Library calls that read state from the file system (the only shared
state a script of this repository writes).  No script of the repository
performs any of them. -/
def readTargets : List String := ["np.load", "np.loadtxt", "open"]

/-
Graph-level embedding of graph_custom (graph_custom.py lines 8-32).

A networkx Graph is a finite set of nodes with a finite set of undirected
edges (unordered pairs); edge insertion also inserts the endpoints as
nodes, and the edge set has set semantics, exactly as in networkx.  The
random draws performed by the function are an explicit input GCRand; the
guarantees documented for the library randomness are the predicate
ValidRand below.
-/

/-- Python exceptions that graph_custom can raise through its library
calls. -/
inductive PyErr where
  | networkXPointlessConcept
  | valueError
deriving DecidableEq, Repr

/-- A networkx undirected graph: finite node set, finite set of unordered
edges. -/
structure PyGraph where
  nodes : Finset Nat
  edges : Finset (Sym2 Nat)
deriving DecidableEq

/-- G.has_edge(u, v) of networkx. -/
def hasEdge (G : PyGraph) (u v : Nat) : Bool := s(u, v) ∈ G.edges

/-- G.add_edge(u, v) of networkx: inserts the edge and both endpoints. -/
def addEdge (G : PyGraph) (u v : Nat) : PyGraph :=
  ⟨insert u (insert v G.nodes), insert s(u, v) G.edges⟩

/-- The edge set described by a list of endpoint pairs. -/
def treeEdges (t : List (Nat × Nat)) : Finset (Sym2 Nat) :=
  (t.map fun p => s(p.1, p.2)).toFinset

/-- Adjacency along a list of endpoint pairs. -/
def treeAdj (t : List (Nat × Nat)) (a b : Nat) : Prop := s(a, b) ∈ treeEdges t

/-- The graph on nodes 0..n-1 with the given edge list. -/
def treeGraph (n : Nat) (t : List (Nat × Nat)) : PyGraph :=
  ⟨Finset.range n, treeEdges t⟩

/-- nx.generators.trees.random_tree(n): raises NetworkXPointlessConcept for
n = 0, otherwise returns a random spanning tree on nodes 0..n-1.  The
random edge list is an input; that it forms a spanning tree is part of
ValidRand. -/
def random_tree (n : Nat) (t : List (Nat × Nat)) : Except PyErr PyGraph :=
  if n = 0 then .error .networkXPointlessConcept else .ok (treeGraph n t)

/-- np.random.randint(lo, hi): raises ValueError when hi <= lo, otherwise
returns the drawn value x (that lo <= x < hi is part of ValidRand). -/
def randint (lo hi x : Nat) : Except PyErr Nat :=
  if hi ≤ lo then .error .valueError else .ok x

/-- np.random.choice(n, 2, replace=False): raises ValueError when the
population n is smaller than the sample size 2, otherwise returns the two
drawn values (that they are distinct and below n is part of ValidRand). -/
def npChoice2 (n : Nat) (p : Nat × Nat) : Except PyErr (Nat × Nat) :=
  if n < 2 then .error .valueError else .ok p

/-- One iteration of the edge-adding loop:
if not G.has_edge(u, v): G.add_edge(u, v). -/
def addEdgeStep (G : PyGraph) (p : Nat × Nat) : PyGraph :=
  if hasEdge G p.1 p.2 then G else addEdge G p.1 p.2

/-- The edge-adding loop of graph_custom, consuming one random draw per
iteration. -/
def edgeLoop (n : Nat) : List (Nat × Nat) → PyGraph → Except PyErr PyGraph
  | [], G => .ok G
  | p :: rest, G =>
    match npChoice2 n p with
    | .error e => .error e
    | .ok uv => edgeLoop n rest (addEdgeStep G uv)

/-- The random draws consumed by one call of graph_custom: the edge list of
the random tree, the value of np.random.randint(1, n_nodes + 1), and the
stream of np.random.choice(n_nodes, 2, replace=False) results. -/
structure GCRand where
  tree : List (Nat × Nat)
  extra : Nat
  draws : List (Nat × Nat)

/-- The guarantees of the library randomness used by graph_custom:
the tree edge list is a spanning tree on 0..n-1 (in-range distinct
endpoints, exactly n - 1 edges, all nodes below n mutually reachable);
randint(1, n + 1) lies in [1, n] whenever it does not raise (n >= 1);
exactly extra draws are consumed, each choice draw being two distinct
nodes below n whenever it does not raise (n >= 2). -/
def ValidRand (n : Nat) (r : GCRand) : Prop :=
  (∀ p ∈ r.tree, p.1 < n ∧ p.2 < n ∧ p.1 ≠ p.2) ∧
  (treeEdges r.tree).card = n - 1 ∧
  (∀ u, u < n → ∀ v, v < n → Relation.ReflTransGen (treeAdj r.tree) u v) ∧
  (1 ≤ n → 1 ≤ r.extra ∧ r.extra ≤ n) ∧
  r.draws.length = r.extra ∧
  (2 ≤ n → ∀ p ∈ r.draws, p.1 < n ∧ p.2 < n ∧ p.1 ≠ p.2)

/-- graph_custom(n_nodes, show_plot) at the graph level: build the random
tree, draw the number of extra edges, run the edge-adding loop.  The
show_plot branch only draws the plot and does not affect the returned
graph. -/
def graph_custom (n_nodes : Nat) (show_plot : Bool) (r : GCRand) : Except PyErr PyGraph :=
  match random_tree n_nodes r.tree with
  | .error e => .error e
  | .ok G0 =>
    match randint 1 (n_nodes + 1) r.extra with
    | .error e => .error e
    | .ok k => edgeLoop n_nodes (r.draws.take k) G0

/-- Adjacency in a PyGraph. -/
def Adj (G : PyGraph) (a b : Nat) : Prop := s(a, b) ∈ G.edges

/-- A PyGraph is connected when every two of its nodes are joined by a
walk. -/
def Connected (G : PyGraph) : Prop :=
  ∀ u ∈ G.nodes, ∀ v ∈ G.nodes, Relation.ReflTransGen (Adj G) u v

/-- Valid-pair condition for a list of draws. -/
def GoodPairs (n : Nat) (ds : List (Nat × Nat)) : Prop :=
  ∀ p ∈ ds, p.1 < n ∧ p.2 < n ∧ p.1 ≠ p.2

/-- Initial environment of a call gen_random_search(G, n_nodes): the two
parameters bound, everything else unbound. -/
def grsInit (vG vN : PyVal) : St :=
  ⟨fun x => if x = "G" then vG else if x = "n_nodes" then vN else .sym "unbound", []⟩

/-- Whether an event is a call to the given target. -/
def isCallTarget (e : Event) (t : String) : Bool :=
  match e with
  | .call c => c.target = t
  | _ => false

/-- The library-interaction sequence the spec asserts for
gen_random_search(G, n_nodes), parameterized by the library return values
val: adjacency-matrix construction, a progress print, program and context
construction, the two gate applications, engine construction, one run with
exactly shots = 1000, the print of results.samples, and the save of
results.samples to samples.npy, in that order. -/
def grsExpectedTrace (val : Call → PyVal) (vG vN : PyVal) : List Event :=
  let cAdj : Call := ⟨"nx.adjacency_matrix", [vG], []⟩
  let cDense : Call := ⟨"todense", [val cAdj], []⟩
  let cProg : Call := ⟨"sf.Program", [vN], []⟩
  let cCtx : Call := ⟨"prog.context", [val cProg], []⟩
  let cRun : Call := ⟨"eng.run", [val cProg], [("shots", .intV 1000)]⟩
  let cSamples : Call := ⟨"getattr.samples", [val cRun], []⟩
  [.call cAdj,
   .call cDense,
   .call ⟨"print", [.strV "got adjacency matrix"], []⟩,
   .call cProg,
   .call cCtx,
   .call ⟨"GraphEmbed", [val cDense, val cCtx], []⟩,
   .call ⟨"MeasureFock", [val cCtx], []⟩,
   .call ⟨"sf.Engine", [], [("backend", .strV "gaussian")]⟩,
   .call cRun,
   .call cSamples,
   .call ⟨"print", [.strV "Measured photon numbers per mode:", val cSamples], []⟩,
   .call cSamples,
   .call ⟨"np.save", [.strV "samples.npy", val cSamples], []⟩]

/-- The library-interaction sequence the spec asserts for simulation.py:
one Simulation construction, plasma and bunch setup, construction of the
two diagnostics (both with period 100), the assignment of exactly those
two diagnostics to sim.diags, and a single sim.step(1000), in that
order. -/
def simulationExpectedTrace (val : Call → PyVal) : List Event :=
  let cSim : Call := ⟨"Simulation",
    [.intV 200, .sym "10.e-6", .intV 50, .sym "25.e-6", .sym "zmax/Nz/c"],
    [("boundaries", .strV "open")]⟩
  let cFd : Call := ⟨"FieldDiagnostic", [], [("period", .intV 100), ("sim", val cSim)]⟩
  let cPtcl : Call := ⟨"getattr.ptcl", [val cSim], []⟩
  let cP0 : Call := ⟨"getitem", [val cPtcl, .intV 0], []⟩
  let cPd : Call := ⟨"ParticleDiagnostic", [],
    [("period", .intV 100), ("sim", val cSim), ("species", val cP0)]⟩
  [.call cSim,
   .call ⟨"sim.add_plasma", [], [("density", .sym "1.e24")]⟩,
   .call ⟨"add_elec_bunch", [val cSim],
     [("gamma0", .sym "400."), ("sig_r", .sym "1.e-6"), ("sig_z", .sym "1.e-6"),
      ("n_emit", .sym "0."), ("n_part", .sym "1.e5"), ("Q", .sym "-10.e-12")]⟩,
   .call cFd,
   .call cPtcl,
   .call cP0,
   .call cPd,
   .setattr "sim" "diags" [val cFd, val cPd],
   .call ⟨"sim.step", [.intV 1000], []⟩]

/-- The library-interaction sequence the spec asserts for teleportation.py:
seeding, one 3-mode program construction, state preparation and the gate
sequence of the protocol, one remote engine construction for
simulon_gaussian, a single run with shots = 1, and the print of
results.samples; no local Fock engine is ever constructed or run. -/
def teleportationExpectedTrace (val : Call → PyVal) : List Event :=
  let cProg : Call := ⟨"sf.Program", [.intV 3], []⟩
  let cAbs : Call := ⟨"abs", [.sym "1 + 0.5j"], []⟩
  let cAngle : Call := ⟨"np.angle", [.sym "1 + 0.5j"], []⟩
  let cBS : Call := ⟨"BSgate", [.sym "np.pi/4", .sym "np.pi"], []⟩
  let cEng : Call := ⟨"sf.RemoteEngine", [.strV "simulon_gaussian"], []⟩
  let cRun : Call := ⟨"eng.run", [val cProg], [("shots", .intV 1)]⟩
  let cSamples : Call := ⟨"getattr.samples", [val cRun], []⟩
  [.call ⟨"np.random.seed", [.intV 47], []⟩,
   .call cProg,
   .call cAbs,
   .call cAngle,
   .call ⟨"prog.context", [val cProg], []⟩,
   .call ⟨"Coherent", [val cAbs, val cAngle, .sym "q[0]"], []⟩,
   .call ⟨"Squeezed", [.intV (-2), .sym "q[1]"], []⟩,
   .call ⟨"Squeezed", [.intV 2, .sym "q[2]"], []⟩,
   .call cBS,
   .call ⟨"applyGate", [val cBS, .sym "q[1], q[2]"], []⟩,
   .call ⟨"applyGate", [val cBS, .sym "q[0], q[1]"], []⟩,
   .call ⟨"MeasureX", [.sym "q[0]"], []⟩,
   .call ⟨"MeasureP", [.sym "q[1]"], []⟩,
   .call ⟨"Xgate", [.sym "np.sqrt(2) * q[0].par", .sym "q[2]"], []⟩,
   .call ⟨"Zgate", [.sym "-np.sqrt(2) * q[1].par", .sym "q[2]"], []⟩,
   .call cEng,
   .call cRun,
   .call cSamples,
   .call ⟨"print", [val cSamples], []⟩]

/-- An oracle in which every library call raises. -/
def oracleBoom : Oracle := fun _ => .error "boom"

/-- A concrete all-succeeding library valuation for witnesses. -/
def valSym : Call → PyVal := fun _ => .sym "result"

/-- Connectivity transfers to a graph with the same nodes and more edges. -/
theorem connected_mono (G H : PyGraph) (hn : H.nodes = G.nodes)
    (he : G.edges ⊆ H.edges) (hc : Connected G) : Connected H := by
  intro u hu v hv
  rw [hn] at hu hv
  exact (hc u hu v hv).mono fun a b hab => he hab

/-- The loop step leaves the node set unchanged when both endpoints are
already nodes. -/
theorem addEdgeStep_nodes (G : PyGraph) (p : Nat × Nat)
    (h1 : p.1 ∈ G.nodes) (h2 : p.2 ∈ G.nodes) :
    (addEdgeStep G p).nodes = G.nodes := by
  unfold addEdgeStep
  split
  · rfl
  · simp only [addEdge, Finset.insert_eq_self.mpr h2, Finset.insert_eq_self.mpr h1]

/-- The loop step never removes an edge. -/
theorem addEdgeStep_edges_subset (G : PyGraph) (p : Nat × Nat) :
    G.edges ⊆ (addEdgeStep G p).edges := by
  unfold addEdgeStep
  split
  · exact Finset.Subset.refl _
  · exact Finset.subset_insert _ _

/-- The loop step adds at most one edge. -/
theorem addEdgeStep_card (G : PyGraph) (p : Nat × Nat) :
    (addEdgeStep G p).edges.card ≤ G.edges.card + 1 := by
  unfold addEdgeStep
  split
  · exact Nat.le_succ _
  · exact Finset.card_insert_le _ _

/-- Every edge after the loop step is the added edge or an old edge. -/
theorem addEdgeStep_mem (G : PyGraph) (p : Nat × Nat) :
    ∀ e ∈ (addEdgeStep G p).edges, e = s(p.1, p.2) ∨ e ∈ G.edges := by
  unfold addEdgeStep
  split
  · exact fun e he => Or.inr he
  · intro e he
    exact Finset.mem_insert.mp he

/-- Specification of the edge-adding loop for a population of at least two
nodes and in-range distinct draws: it succeeds, keeps the node set, only
adds edges, adds at most one edge per draw, every new edge comes from a
draw, and connectivity is preserved. -/
theorem edgeLoop_spec (n : Nat) (hn : 2 ≤ n) (ds : List (Nat × Nat)) :
    ∀ G : PyGraph, GoodPairs n ds → G.nodes = Finset.range n →
    ∃ G2, edgeLoop n ds G = .ok G2 ∧
      G2.nodes = Finset.range n ∧
      G.edges ⊆ G2.edges ∧
      G2.edges.card ≤ G.edges.card + ds.length ∧
      (∀ e ∈ G2.edges, e ∈ G.edges ∨ ∃ p ∈ ds, e = s(p.1, p.2)) ∧
      (Connected G → Connected G2) := by
  induction ds with
  | nil =>
    intro G _ hnodes
    exact ⟨G, rfl, hnodes, Finset.Subset.refl _, by simp, fun e he => Or.inl he, id⟩
  | cons p rest ih =>
    intro G hgood hnodes
    obtain ⟨hp1, hp2, hpne⟩ := hgood p (by simp)
    have hmem1 : p.1 ∈ G.nodes := by rw [hnodes]; exact Finset.mem_range.mpr hp1
    have hmem2 : p.2 ∈ G.nodes := by rw [hnodes]; exact Finset.mem_range.mpr hp2
    have hsn := addEdgeStep_nodes G p hmem1 hmem2
    obtain ⟨G2, heq, hn2, hsub, hcard, hchar, hconn⟩ :=
      ih (addEdgeStep G p) (fun q hq => hgood q (by simp [hq])) (hsn.trans hnodes)
    have hch : npChoice2 n p = .ok p := by
      unfold npChoice2
      rw [if_neg (by omega)]
    refine ⟨G2, ?_, hn2, ?_, ?_, ?_, ?_⟩
    · simp [edgeLoop, hch, heq]
    · exact (addEdgeStep_edges_subset G p).trans hsub
    · have h1 := addEdgeStep_card G p
      simp only [List.length_cons]
      omega
    · intro e he
      rcases hchar e he with h | ⟨q, hq, hqe⟩
      · rcases addEdgeStep_mem G p e h with h1 | h1
        · exact Or.inr ⟨p, by simp, h1⟩
        · exact Or.inl h1
      · exact Or.inr ⟨q, by simp [hq], hqe⟩
    · intro hc
      exact hconn (connected_mono G (addEdgeStep G p) hsn (addEdgeStep_edges_subset G p) hc)

/-- For a nonempty node set, graph_custom reduces to the edge-adding loop
run on the random tree with the first extra draws. -/
theorem graph_custom_eq_loop (n : Nat) (sp : Bool) (r : GCRand) (hn : 1 ≤ n) :
    graph_custom n sp r = edgeLoop n (r.draws.take r.extra) (treeGraph n r.tree) := by
  simp only [graph_custom, random_tree, randint, if_neg (by omega : ¬ n = 0),
    if_neg (by omega : ¬ n + 1 ≤ 1)]

/-- The initial random tree is connected. -/
theorem treeGraph_connected (n : Nat) (t : List (Nat × Nat))
    (h : ∀ u, u < n → ∀ v, v < n → Relation.ReflTransGen (treeAdj t) u v) :
    Connected (treeGraph n t) := by
  intro u hu v hv
  simp only [treeGraph, Finset.mem_range] at hu hv
  exact h u hu v hv

/-- Endpoints of an unordered pair equal to a pair with in-range distinct
components are themselves in range and distinct. -/
theorem endpoints_of_sym2_eq (n u v a b : Nat) (h : s(a, b) = s(u, v))
    (ha : a < n) (hb : b < n) (hab : a ≠ b) : u ≠ v ∧ u < n ∧ v < n := by
  rcases Sym2.eq_iff.mp h with ⟨rfl, rfl⟩ | ⟨rfl, rfl⟩ <;>
    exact ⟨by omega, by omega, by omega⟩

/-- C1: for every n_nodes >= 2 and valid library randomness, the graph
returned by graph_custom(n_nodes, show_plot) is connected: the random
spanning tree is connected and the edge-adding loop only adds edges
between existing nodes, preserving connectivity. -/
theorem graph_custom_connected (n : Nat) (sp : Bool) (r : GCRand) (G : PyGraph)
    (hn : 2 ≤ n) (hr : ValidRand n r) (h : graph_custom n sp r = .ok G) :
    Connected G := by
  obtain ⟨htp, htc, htconn, hext, hlen, hdraws⟩ := hr
  rw [graph_custom_eq_loop n sp r (by omega)] at h
  have hgood : GoodPairs n (r.draws.take r.extra) :=
    fun p hp => hdraws hn p (List.take_subset _ _ hp)
  obtain ⟨G2, heq, hn2, hsub, hcard, hchar, hconn⟩ :=
    edgeLoop_spec n hn (r.draws.take r.extra) (treeGraph n r.tree) hgood rfl
  rw [heq] at h
  injection h with h
  subst h
  exact hconn (treeGraph_connected n r.tree htconn)

/-- Witness for C1 at n_nodes = 2 with tree 0-1 and one redundant draw. -/
def rPair : GCRand := ⟨[(0, 1)], 1, [(0, 1)]⟩

/-- The randomness record rPair satisfies the library guarantees at 2
nodes. -/
theorem validRand_rPair : ValidRand 2 rPair := by
  refine ⟨by decide, by decide, ?_, fun _ => ⟨by decide, by decide⟩, by decide, by decide⟩
  intro u hu v hv
  interval_cases u <;> interval_cases v
  · exact .refl
  · exact .single (by unfold treeAdj; decide)
  · exact .single (by unfold treeAdj; decide)
  · exact .refl

/-- Witness for graph_custom_connected at a concrete input. -/
theorem graph_custom_connected_witness :
    (2 ≤ 2) ∧ ValidRand 2 rPair ∧ Connected (treeGraph 2 [(0, 1)]) :=
  ⟨by omega, validRand_rPair,
    graph_custom_connected 2 false rPair (treeGraph 2 [(0, 1)]) (by omega) validRand_rPair
      (by rfl)⟩

/-- C9: for every n_nodes >= 2 and valid library randomness, the returned
graph is a simple graph on exactly the node set 0..n_nodes-1: no node is
added beyond the tree nodes, and every edge joins two distinct in-range
nodes (the edge set is a finite set, so no edge occurs twice, matching the
set semantics of the networkx edge container). -/
theorem graph_custom_simple_graph (n : Nat) (sp : Bool) (r : GCRand) (G : PyGraph)
    (hn : 2 ≤ n) (hr : ValidRand n r) (h : graph_custom n sp r = .ok G) :
    G.nodes = Finset.range n ∧ ∀ u v : Nat, s(u, v) ∈ G.edges → u ≠ v ∧ u < n ∧ v < n := by
  obtain ⟨htp, htc, htconn, hext, hlen, hdraws⟩ := hr
  rw [graph_custom_eq_loop n sp r (by omega)] at h
  have hgood : GoodPairs n (r.draws.take r.extra) :=
    fun p hp => hdraws hn p (List.take_subset _ _ hp)
  obtain ⟨G2, heq, hn2, hsub, hcard, hchar, hconn⟩ :=
    edgeLoop_spec n hn (r.draws.take r.extra) (treeGraph n r.tree) hgood rfl
  rw [heq] at h
  injection h with h
  subst h
  refine ⟨hn2, ?_⟩
  intro u v huv
  rcases hchar _ huv with hmem | ⟨p, hp, hpe⟩
  · obtain ⟨q, hq, hqe⟩ := List.mem_map.mp (List.mem_toFinset.mp hmem)
    obtain ⟨hq1, hq2, hqne⟩ := htp q hq
    exact endpoints_of_sym2_eq n u v q.1 q.2 hqe hq1 hq2 hqne
  · obtain ⟨hp1, hp2, hpne⟩ := hgood p hp
    exact endpoints_of_sym2_eq n u v p.1 p.2 hpe.symm hp1 hp2 hpne

/-- Witness for graph_custom_simple_graph at a concrete input. -/
theorem graph_custom_simple_graph_witness :
    (2 ≤ 2) ∧ ValidRand 2 rPair ∧
      ((treeGraph 2 [(0, 1)]).nodes = Finset.range 2 ∧
        ∀ u v : Nat, s(u, v) ∈ (treeGraph 2 [(0, 1)]).edges → u ≠ v ∧ u < 2 ∧ v < 2) :=
  ⟨by omega, validRand_rPair,
    graph_custom_simple_graph 2 false rPair (treeGraph 2 [(0, 1)]) (by omega) validRand_rPair
      (by rfl)⟩

/-- C10: for every n_nodes >= 2 and valid library randomness, the returned
graph has at least n_nodes - 1 and at most 2 * n_nodes - 1 edges: the tree
contributes n_nodes - 1 edges and the loop performs between 1 and n_nodes
iterations, each adding at most one edge. -/
theorem graph_custom_edge_count (n : Nat) (sp : Bool) (r : GCRand) (G : PyGraph)
    (hn : 2 ≤ n) (hr : ValidRand n r) (h : graph_custom n sp r = .ok G) :
    n - 1 ≤ G.edges.card ∧ G.edges.card ≤ 2 * n - 1 := by
  obtain ⟨htp, htc, htconn, hext, hlen, hdraws⟩ := hr
  rw [graph_custom_eq_loop n sp r (by omega)] at h
  have hgood : GoodPairs n (r.draws.take r.extra) :=
    fun p hp => hdraws hn p (List.take_subset _ _ hp)
  obtain ⟨G2, heq, hn2, hsub, hcard, hchar, hconn⟩ :=
    edgeLoop_spec n hn (r.draws.take r.extra) (treeGraph n r.tree) hgood rfl
  rw [heq] at h
  have hG : G = G2 := (Except.ok.inj h).symm
  subst hG
  have hlow : (treeEdges r.tree).card ≤ G.edges.card := Finset.card_le_card hsub
  have hlen2 : (r.draws.take r.extra).length = r.extra := by
    rw [List.length_take, hlen]
    omega
  obtain ⟨hx1, hx2⟩ := hext (by omega)
  have hup : G.edges.card ≤ (treeEdges r.tree).card + (r.draws.take r.extra).length := hcard
  rw [htc, hlen2] at hup
  rw [htc] at hlow
  omega

/-- Witness for graph_custom_edge_count at a concrete input. -/
theorem graph_custom_edge_count_witness :
    (2 ≤ 2) ∧ ValidRand 2 rPair ∧
      (2 - 1 ≤ (treeGraph 2 [(0, 1)]).edges.card ∧
        (treeGraph 2 [(0, 1)]).edges.card ≤ 2 * 2 - 1) :=
  ⟨by omega, validRand_rPair,
    graph_custom_edge_count 2 false rPair (treeGraph 2 [(0, 1)]) (by omega) validRand_rPair
      (by rfl)⟩

/-- C8: for every n_nodes < 2, graph_custom raises instead of returning a
graph: at n_nodes = 0 the random-tree constructor raises
NetworkXPointlessConcept, and at n_nodes = 1 the loop runs at least once
and np.random.choice(1, 2, replace=False) raises ValueError. -/
theorem graph_custom_raises_below_two (n : Nat) (sp : Bool) (r : GCRand)
    (hn : n < 2) (hr : ValidRand n r) :
    ∃ e, graph_custom n sp r = .error e := by
  obtain ⟨htp, htc, htconn, hext, hlen, hdraws⟩ := hr
  interval_cases n
  · exact ⟨.networkXPointlessConcept, by simp [graph_custom, random_tree]⟩
  · obtain ⟨hx1, hx2⟩ := hext (by omega)
    refine ⟨.valueError, ?_⟩
    rw [graph_custom_eq_loop 1 sp r (by omega)]
    obtain ⟨k, hk⟩ : ∃ k, r.extra = k + 1 := ⟨r.extra - 1, by omega⟩
    cases hds : r.draws with
    | nil =>
      rw [hds] at hlen
      simp at hlen
      omega
    | cons p rest =>
      rw [hk]
      simp [List.take_succ_cons, edgeLoop, npChoice2]

/-- Randomness record for the n_nodes = 1 witness: empty tree, one loop
iteration, one (raising) draw. -/
def rOne : GCRand := ⟨[], 1, [(0, 0)]⟩

/-- The randomness record rOne satisfies the library guarantees at 1
node. -/
theorem validRand_rOne : ValidRand 1 rOne := by
  refine ⟨by decide, by decide, ?_, fun _ => ⟨by decide, by decide⟩, by decide, ?_⟩
  · intro u hu v hv
    interval_cases u <;> interval_cases v
    exact .refl
  · intro h
    omega

/-- Witness for graph_custom_raises_below_two at a concrete input. -/
theorem graph_custom_raises_below_two_witness :
    (1 < 2) ∧ ∃ e, graph_custom 1 false rOne = .error e :=
  ⟨by omega, graph_custom_raises_below_two 1 false rOne (by omega) validRand_rOne⟩

/-- Errors in the first statement of a sequence propagate: no later code
can swallow an exception raised earlier. -/
theorem exec_seq_error (ω : Oracle) (a b : Stmt) (σ : St) (e : String)
    (h : a.exec ω σ = .error e) : (Stmt.seq a b).exec ω σ = .error e := by
  simp only [Stmt.exec, h]

/-- Error origin through loop iteration: an error of the iterated body is
an error of some iteration. -/
theorem execIter_error (f : Nat → St → Except String (St × Option PyVal))
    (P : String → Prop) (hf : ∀ i s e, f i s = .error e → P e) :
    ∀ k i s e, execIter f i k s = .error e → P e := by
  intro k
  induction k with
  | zero =>
    intro i s e h
    simp [execIter] at h
  | succ k ih =>
    intro i s e h
    rw [execIter] at h
    cases hfi : f i s with
    | error e2 =>
      rw [hfi] at h
      simp only [Except.error.injEq] at h
      subst h
      exact hf i s e2 hfi
    | ok r =>
      obtain ⟨s1, v⟩ := r
      cases v with
      | some vv =>
        rw [hfi] at h
        simp at h
      | none =>
        rw [hfi] at h
        exact ih (i + 1) s1 e h

/-- Every error produced by executing a statement originates in a library
call: the scripts produce no error results of their own. -/
theorem exec_error_origin (ω : Oracle) :
    ∀ s : Stmt, ∀ σ e, s.exec ω σ = .error e → ∃ c, ω c = .error e := by
  intro s
  induction s with
  | skip =>
    intro σ e h
    simp [Stmt.exec] at h
  | assign x v =>
    intro σ e h
    simp [Stmt.exec] at h
  | assignCall x c =>
    intro σ e h
    rw [Stmt.exec] at h
    cases hc : ω (resolveCall σ.env c) with
    | error e2 =>
      rw [hc] at h
      simp only [Except.error.injEq] at h
      subst h
      exact ⟨_, hc⟩
    | ok v =>
      rw [hc] at h
      simp at h
  | exprCall c =>
    intro σ e h
    rw [Stmt.exec] at h
    cases hc : ω (resolveCall σ.env c) with
    | error e2 =>
      rw [hc] at h
      simp only [Except.error.injEq] at h
      subst h
      exact ⟨_, hc⟩
    | ok v =>
      rw [hc] at h
      simp at h
  | setattrList obj attr vs =>
    intro σ e h
    simp [Stmt.exec] at h
  | ret v =>
    intro σ e h
    simp [Stmt.exec] at h
  | seq a b iha ihb =>
    intro σ e h
    rw [Stmt.exec] at h
    cases ha : a.exec ω σ with
    | error e2 =>
      rw [ha] at h
      simp only [Except.error.injEq] at h
      subst h
      exact iha σ e2 ha
    | ok r =>
      obtain ⟨s1, v⟩ := r
      cases v with
      | some vv =>
        rw [ha] at h
        simp at h
      | none =>
        rw [ha] at h
        exact ihb s1 e h
  | forRange x cnt body ih =>
    intro σ e h
    rw [Stmt.exec] at h
    exact execIter_error _ _ (fun i s2 e2 h2 => ih _ e2 h2) _ _ _ e h
  | ite c t el iht ihel =>
    intro σ e h
    rw [Stmt.exec] at h
    split at h
    · exact iht _ _ h
    · exact ihel _ _ h
  | tryExcept b hd ihb ihh =>
    intro σ e h
    rw [Stmt.exec] at h
    cases hb : b.exec ω σ with
    | error e2 =>
      rw [hb] at h
      exact ihh _ _ h
    | ok r =>
      rw [hb] at h
      simp at h

/-- C3: no script of the repository handles errors.  The three embedded
scripts contain no try/except anywhere; an exception raised by a library
call in any prefix propagates uncaught past the rest of the script; and
every error result originates in a library call, so no script produces
error results of its own. -/
theorem no_error_handling :
    Stmt.noTryB graphCustomScript = true ∧
    Stmt.noTryB simulationAst = true ∧
    Stmt.noTryB teleportationAst = true ∧
    (∀ ω : Oracle, ∀ a b : Stmt, ∀ σ e, a.exec ω σ = .error e →
      (Stmt.seq a b).exec ω σ = .error e) ∧
    (∀ ω : Oracle, ∀ s : Stmt, ∀ σ e, s.exec ω σ = .error e → ∃ c, ω c = .error e) :=
  ⟨by decide, by decide, by decide,
    fun ω a b σ e h => exec_seq_error ω a b σ e h,
    fun ω s σ e h => exec_error_origin ω s σ e h⟩

/-- Witness for no_error_handling: a concrete raising call propagates past
a following statement, and the error is traced back to a library call. -/
theorem no_error_handling_witness :
    (Stmt.seq (.exprCall ⟨"f", [], []⟩) .skip).exec oracleBoom initSt = .error "boom" ∧
    (∃ c, oracleBoom c = .error "boom") :=
  ⟨no_error_handling.2.2.2.1 oracleBoom (.exprCall ⟨"f", [], []⟩) .skip initSt "boom" (by rfl),
    no_error_handling.2.2.2.2 oracleBoom (.exprCall ⟨"f", [], []⟩) initSt "boom" (by rfl)⟩

/-- Counterexample to C2 as stated: it is not the case that all three
scripts are branch-free and loop-free, because graph_custom.py contains a
for loop and conditionals. -/
theorem not_all_scripts_straightline :
    (Stmt.straightB graphCustomScript && Stmt.straightB simulationAst &&
      Stmt.straightB teleportationAst) = false := by decide

/-- C2 (amended): simulation.py and teleportation.py are branch-free,
loop-free sequences of parameter assignments and library calls, but
graph_custom.py is not: its graph_custom function contains a for loop and
an edge-existence conditional (and the file has a show_plot conditional
and a main guard). -/
theorem scripts_straightline_amended :
    Stmt.straightB simulationAst = true ∧
    Stmt.straightB teleportationAst = true ∧
    Stmt.straightB graphCustomScript = false := by decide

/-- Loop iteration is a congruence: pointwise equal bodies iterate
equally. -/
theorem execIter_congr (f g : Nat → St → Except String (St × Option PyVal))
    (hfg : ∀ i s, f i s = g i s) : ∀ k i s, execIter f i k s = execIter g i k s := by
  intro k
  induction k with
  | zero =>
    intro i s
    rfl
  | succ k ih =>
    intro i s
    rw [execIter, execIter, hfg]
    cases hgi : g i s with
    | error e => rfl
    | ok r =>
      obtain ⟨s1, v⟩ := r
      cases v with
      | some vv => rfl
      | none => exact ih (i + 1) s1

/-- Noninterference with unread state: if a statement makes no call whose
target is in R, its execution is identical under any two oracles that agree
outside R.  Instantiated with R the file-reading calls, this says a script
with no file reads behaves the same whatever has been written to the file
system before it runs. -/
theorem exec_oracle_agree (om1 om2 : Oracle) (R : List String)
    (hagree : ∀ c : Call, R.contains c.target = false → om1 c = om2 c) :
    ∀ s : Stmt, (s.callTargets.all fun t => !(R.contains t)) = true →
    ∀ σ, s.exec om1 σ = s.exec om2 σ := by
  intro s
  induction s with
  | skip =>
    intro _ σ
    rfl
  | assign x v =>
    intro _ σ
    rfl
  | assignCall x c =>
    intro hall σ
    simp only [Stmt.callTargets, List.all_cons, List.all_nil, Bool.and_true,
      Bool.not_eq_true'] at hall
    rw [Stmt.exec, Stmt.exec, hagree (resolveCall σ.env c) hall]
  | exprCall c =>
    intro hall σ
    simp only [Stmt.callTargets, List.all_cons, List.all_nil, Bool.and_true,
      Bool.not_eq_true'] at hall
    rw [Stmt.exec, Stmt.exec, hagree (resolveCall σ.env c) hall]
  | setattrList obj attr vs =>
    intro _ σ
    rfl
  | ret v =>
    intro _ σ
    rfl
  | seq a b iha ihb =>
    intro hall σ
    simp only [Stmt.callTargets, List.all_append, Bool.and_eq_true] at hall
    obtain ⟨ha, hb⟩ := hall
    rw [Stmt.exec, Stmt.exec, iha ha σ]
    cases h2 : a.exec om2 σ with
    | error e => rfl
    | ok r =>
      obtain ⟨s1, v⟩ := r
      cases v with
      | some vv => rfl
      | none => exact ihb hb s1
  | forRange x cnt body ih =>
    intro hall σ
    rw [Stmt.exec, Stmt.exec]
    exact execIter_congr _ _ (fun i s2 => ih hall (s2.set x (.intV i))) _ _ _
  | ite c t el iht ihel =>
    intro hall σ
    simp only [Stmt.callTargets, List.all_append, Bool.and_eq_true] at hall
    obtain ⟨ht, hel⟩ := hall
    rw [Stmt.exec, Stmt.exec]
    split
    · exact iht ht σ
    · exact ihel hel σ
  | tryExcept b hd ihb ihh =>
    intro hall σ
    simp only [Stmt.callTargets, List.all_append, Bool.and_eq_true] at hall
    obtain ⟨hb, hh⟩ := hall
    rw [Stmt.exec, Stmt.exec, ihb hb σ]
    cases h2 : b.exec om2 σ with
    | error e => exact ihh hh σ
    | ok r => rfl

/-- C7: mutual independence of the three scripts.  Every import of every
script is an external library (no repository module is imported); no call
in simulation.py or teleportation.py targets a function defined by
graph_custom.py (the other two files define no functions, so this is the
full pairwise cross-call check); and, since no script performs any
file-reading call, each script executes identically under any two library
oracles that agree away from file reads, i.e. its observable behavior is
the same whether or not another script has run and written its files. -/
theorem scripts_independent (om1 om2 : Oracle)
    (h : ∀ c : Call, readTargets.contains c.target = false → om1 c = om2 c) :
    (externalOnly graphCustomImports = true ∧
      externalOnly teleportationImports = true ∧
      externalOnly simulationImports = true) ∧
    noCrossCalls = true ∧
    (∀ σ, graphCustomScript.exec om1 σ = graphCustomScript.exec om2 σ) ∧
    (∀ σ, teleportationAst.exec om1 σ = teleportationAst.exec om2 σ) ∧
    (∀ σ, simulationAst.exec om1 σ = simulationAst.exec om2 σ) :=
  ⟨⟨by decide, by decide, by decide⟩, by decide,
    fun σ => exec_oracle_agree om1 om2 readTargets h graphCustomScript (by decide) σ,
    fun σ => exec_oracle_agree om1 om2 readTargets h teleportationAst (by decide) σ,
    fun σ => exec_oracle_agree om1 om2 readTargets h simulationAst (by decide) σ⟩

/-- Witness for scripts_independent at a concrete pair of (equal) oracles. -/
theorem scripts_independent_witness :
    (externalOnly graphCustomImports = true ∧
      externalOnly teleportationImports = true ∧
      externalOnly simulationImports = true) ∧
    noCrossCalls = true ∧
    (∀ σ, graphCustomScript.exec (okO valSym) σ = graphCustomScript.exec (okO valSym) σ) ∧
    (∀ σ, teleportationAst.exec (okO valSym) σ = teleportationAst.exec (okO valSym) σ) ∧
    (∀ σ, simulationAst.exec (okO valSym) σ = simulationAst.exec (okO valSym) σ) :=
  scripts_independent (okO valSym) (okO valSym) (fun _ _ => rfl)

/-- C4: under any library responses, gen_random_search(G, n_nodes)
performs exactly the interactions of grsExpectedTrace in that order -- in
particular the engine run is called with exactly shots = 1000, the print
of results.samples follows it, and the save of results.samples to
samples.npy comes last -- and the function returns nothing (there is no
return statement, so the result value is none). -/
theorem gen_random_search_sequence (val : Call → PyVal) (vG vN : PyVal) :
    (∃ env, genRandomSearchBody.exec (okO val) (grsInit vG vN) =
      .ok (⟨env, grsExpectedTrace val vG vN⟩, none)) ∧
    (grsExpectedTrace val vG vN).countP (fun e => isCallTarget e "eng.run") = 1 :=
  ⟨⟨_, rfl⟩, rfl⟩

/-- Witness for gen_random_search_sequence at a concrete valuation. -/
theorem gen_random_search_sequence_witness :
    (∃ env, genRandomSearchBody.exec (okO valSym) (grsInit (.sym "G") (.intV 10)) =
      .ok (⟨env, grsExpectedTrace valSym (.sym "G") (.intV 10)⟩, none)) ∧
    (grsExpectedTrace valSym (.sym "G") (.intV 10)).countP
      (fun e => isCallTarget e "eng.run") = 1 :=
  gen_random_search_sequence valSym (.sym "G") (.intV 10)

/-- C5: under any library responses, simulation.py constructs exactly one
Simulation object, performs the plasma and bunch setup, constructs one
FieldDiagnostic and one ParticleDiagnostic (both with period = 100),
assigns exactly those two to sim.diags, and then performs a single call
sim.step(1000), in that order (the trace equality fixes the order and the
counts single out the construction and the step). -/
theorem simulation_sequence (val : Call → PyVal) :
    (∃ env, simulationAst.exec (okO val) initSt =
      .ok (⟨env, simulationExpectedTrace val⟩, none)) ∧
    (simulationExpectedTrace val).countP (fun e => isCallTarget e "Simulation") = 1 ∧
    (simulationExpectedTrace val).countP (fun e => isCallTarget e "sim.step") = 1 :=
  ⟨⟨_, rfl⟩, rfl, rfl⟩

/-- Witness for simulation_sequence at a concrete valuation. -/
theorem simulation_sequence_witness :
    (∃ env, simulationAst.exec (okO valSym) initSt =
      .ok (⟨env, simulationExpectedTrace valSym⟩, none)) ∧
    (simulationExpectedTrace valSym).countP (fun e => isCallTarget e "Simulation") = 1 ∧
    (simulationExpectedTrace valSym).countP (fun e => isCallTarget e "sim.step") = 1 :=
  simulation_sequence valSym

set_option maxHeartbeats 2000000 in
/-- C6: under any library responses, teleportation.py declares one quantum
program on exactly 3 modes, submits it exactly once, to the remote engine
constructed for simulon_gaussian with shots = 1, and prints
results.samples afterwards; no local Fock engine call sf.Engine occurs in
the trace, so the commented-out local path is never executed. -/
theorem teleportation_sequence (val : Call → PyVal) :
    (∃ env, teleportationAst.exec (okO val) initSt =
      .ok (⟨env, teleportationExpectedTrace val⟩, none)) ∧
    (teleportationExpectedTrace val).countP (fun e => isCallTarget e "eng.run") = 1 ∧
    (teleportationExpectedTrace val).countP (fun e => isCallTarget e "sf.Engine") = 0 :=
  ⟨⟨_, rfl⟩, rfl, rfl⟩

/-- Witness for teleportation_sequence at a concrete valuation. -/
theorem teleportation_sequence_witness :
    (∃ env, teleportationAst.exec (okO valSym) initSt =
      .ok (⟨env, teleportationExpectedTrace valSym⟩, none)) ∧
    (teleportationExpectedTrace valSym).countP (fun e => isCallTarget e "eng.run") = 1 ∧
    (teleportationExpectedTrace valSym).countP (fun e => isCallTarget e "sf.Engine") = 0 :=
  teleportation_sequence valSym
